import Mathlib

/-!
# Verification of the Tiled-BG-Remover core

A shallow embedding, in Lean 4, of the algorithmic core of the
Tiled-BG-Remover application:

* the smart grid planner (`computeSmartGridCount`, `clampInt` from
  `src/routes/+page.svelte`),
* the tile-geometry computation (`calculateGrid` from `src/lib/TileGrid.svelte`),
* the per-tile status machine and worker loop (`processSingleTile`,
  `processAll`, `regenerateTile` from `src/lib/TileGrid.svelte`),
* the reactive re-merge trigger and the external-call footprint of
  `mergeAll` (from `src/lib/TileGrid.svelte`),
* the response handling of the network client (`generateImage`,
  `extractFirstInlineImage`, `detectMainSubject`, `normalizeSubject`,
  `isLikelySubject` from `src/lib/api.ts`).

JavaScript numbers are modelled by exact rationals (`ℚ`); the reasoning is
"in exact arithmetic", as the geometric invariants are stated.  Every
quantity the embedded functions manipulate is derived from the source code,
not from the specification text.
-/

namespace TiledBG

/-! ## JS numeric helpers

`Math.round x` in JavaScript is `⌊x + 1/2⌋` (half-way cases round toward
`+∞`, including for negative inputs). -/

def jsRound (x : ℚ) : ℤ := ⌊x + 1/2⌋

/-- `clampInt` from `src/routes/+page.svelte`:
`Math.min(max, Math.max(min, Math.round(value)))`.
(The `Number.isNaN` guard has no counterpart over `ℚ`, which has no NaN.) -/
def clampInt (value : ℚ) (min max : ℤ) : ℤ :=
  Min.min max (Max.max min (jsRound value))

/-- `const smartGridMaxCount = 64` in `src/routes/+page.svelte`. -/
def smartGridMaxCount : ℤ := 64

/-- `computeSmartGridCount` from `src/routes/+page.svelte`:

```js
const safeMaxTileSize = Math.max(1, maxTileSize);
const denom = 1 - overlapRatio;
if (denom <= 0) return smartGridMaxCount;
const rawCount = (size / safeMaxTileSize - overlapRatio) / denom;
return clampInt(Math.ceil(rawCount), 1, smartGridMaxCount);
```
-/
def computeSmartGridCount (size maxTileSize overlapRatio : ℚ) : ℤ :=
  let safeMaxTileSize := Max.max 1 maxTileSize
  let denom := 1 - overlapRatio
  if denom ≤ 0 then smartGridMaxCount
  else clampInt (⌈(size / safeMaxTileSize - overlapRatio) / denom⌉ : ℤ) 1 smartGridMaxCount

/-! ## Tile data model

The tile objects built by `calculateGrid` in `src/lib/TileGrid.svelte`:
`{ r, c, x, y, w, h, status: 'pending', path: '', originalPath: '' }`. -/

inductive TileStatus where
  | pending
  | processing
  | done
  | error
deriving Repr, DecidableEq, BEq

structure Tile where
  r : ℕ
  c : ℕ
  x : ℚ
  y : ℚ
  w : ℚ
  h : ℚ
  status : TileStatus
  path : String
  originalPath : String
deriving Repr, DecidableEq

instance : Inhabited Tile :=
  ⟨{ r := 0, c := 0, x := 0, y := 0, w := 0, h := 0,
     status := .pending, path := "", originalPath := "" }⟩

/-- The tile built for grid cell `(r, c)` by `calculateGrid`
(`src/lib/TileGrid.svelte`):

```js
const tileW = w / (cols - (cols - 1) * overlap);
const tileH = h / (rows - (rows - 1) * overlap);
const overlapW = tileW * overlap;
const overlapH = tileH * overlap;
const x = c * (tileW - overlapW);
const y = r * (tileH - overlapH);
```
-/
def gridTile (w h : ℚ) (rows cols : ℕ) (overlap : ℚ) (r c : ℕ) : Tile :=
  let tileW := w / ((cols : ℚ) - ((cols : ℚ) - 1) * overlap)
  let tileH := h / ((rows : ℚ) - ((rows : ℚ) - 1) * overlap)
  let overlapW := tileW * overlap
  let overlapH := tileH * overlap
  { r := r, c := c,
    x := (c : ℚ) * (tileW - overlapW),
    y := (r : ℚ) * (tileH - overlapH),
    w := tileW, h := tileH,
    status := .pending, path := "", originalPath := "" }

/-- `calculateGrid` from `src/lib/TileGrid.svelte`: the double loop
`for r in 0..rows, for c in 0..cols` pushing `gridTile` objects.
(The guard on `imgElement.complete` is UI plumbing and not modelled;
`w`/`h` are the image's natural dimensions.) -/
def calculateGrid (w h : ℚ) (rows cols : ℕ) (overlap : ℚ) : List Tile :=
  (List.range rows).flatMap fun r =>
    (List.range cols).map fun c => gridTile w h rows cols overlap r c

/-- Width of the intersection of the x-extents of two tiles
(the shared vertical band of two horizontally adjacent tiles). -/
def overlapBandX (t1 t2 : Tile) : ℚ :=
  Min.min (t1.x + t1.w) (t2.x + t2.w) - Max.max t1.x t2.x

/-- Height of the intersection of the y-extents of two tiles
(the shared horizontal band of two vertically adjacent tiles). -/
def overlapBandY (t1 t2 : Tile) : ℚ :=
  Min.min (t1.y + t1.h) (t2.y + t2.h) - Max.max t1.y t2.y

end TiledBG

namespace TiledBG

/-! ## Theorems for claims C1 and C4 -/

theorem jsRound_intCast (n : ℤ) : jsRound (n : ℚ) = n := by
  unfold jsRound
  rw [Int.floor_eq_iff]
  constructor
  · linarith
  · linarith

/-- On a non-degenerate overlap ratio the planner is the clamped ceiling
formula. -/
theorem computeSmartGridCount_eq (S m r : ℚ) (hr : r < 1) :
    computeSmartGridCount S m r =
      Max.max 1 (Min.min 64 (⌈(S / Max.max 1 m - r) / (1 - r)⌉ : ℤ)) := by
  unfold computeSmartGridCount clampInt smartGridMaxCount
  have hden : ¬ (1 - r ≤ 0) := by linarith
  simp only [hden, if_false]
  rw [jsRound_intCast]
  omega

theorem computeSmartGridCount_2000 :
    computeSmartGridCount 2000 1024 (1/10) = 3 := by
  rw [computeSmartGridCount_eq 2000 1024 (1/10) (by norm_num)]
  rw [show ((2000 : ℚ) / Max.max 1 1024 - 1/10) / (1 - 1/10) = 593/288 by norm_num]
  rw [show (⌈(593 : ℚ)/288⌉ : ℤ) = 3 by rw [Int.ceil_eq_iff] <;> norm_num]
  decide

theorem computeSmartGridCount_1000 :
    computeSmartGridCount 1000 1024 (1/10) = 1 := by
  rw [computeSmartGridCount_eq 1000 1024 (1/10) (by norm_num)]
  rw [show ((1000 : ℚ) / Max.max 1 1024 - 1/10) / (1 - 1/10) = 187/192 by norm_num]
  rw [show (⌈(187 : ℚ)/192⌉ : ℤ) = 1 by rw [Int.ceil_eq_iff] <;> norm_num]
  decide

theorem range_one : List.range 1 = [0] := rfl

theorem range_two : List.range 2 = [0, 1] := rfl

theorem range_three : List.range 3 = [0, 1, 2] := rfl

/-- C1 — counterexample.  The spec's concrete scenario asserts that a
2000×1000 image with `maxTileDimension = 1024` and `overlapRatio = 0.1`
yields `cols = 2`; the planner actually computes
`ceil((2000/1024 - 0.1) / 0.9) = ceil(2.059...) = 3`. -/
theorem C1_counterexample :
    computeSmartGridCount 2000 1024 (1/10) = 3 ∧ (3 : ℤ) ≠ 2 :=
  ⟨computeSmartGridCount_2000, by decide⟩

/-- C1 — amended.  For a 2000×1000 image with `maxTileDimension = 1024`
and `overlapRatio = 0.1` the planner computes `cols = 3` and `rows = 1`;
the tile width is `Tw = 5000/7 ≈ 714.3`, tile `(0,0)` has origin `(0,0)`,
tile `(0,1)` has origin `x = 4500/7 ≈ 642.9, y = 0`, and tile `(0,2)` has
origin `x = 9000/7 ≈ 1285.7, y = 0`. -/
theorem C1_amended :
    computeSmartGridCount 2000 1024 (1/10) = 3 ∧
    computeSmartGridCount 1000 1024 (1/10) = 1 ∧
    ((calculateGrid 2000 1000 1 3 (1/10)).map fun t => (t.r, t.c, t.x, t.y, t.w, t.h)) =
      [(0, 0, 0, 0, 5000/7, 1000),
       (0, 1, 4500/7, 0, 5000/7, 1000),
       (0, 2, 9000/7, 0, 5000/7, 1000)] := by
  refine ⟨computeSmartGridCount_2000, computeSmartGridCount_1000, ?_⟩
  simp only [calculateGrid, gridTile, range_one, range_three,
    List.flatMap_cons, List.flatMap_nil, List.map_cons, List.map_nil,
    List.append_nil, List.cons.injEq, Prod.mk.injEq, and_true]
  norm_num

/-- C4 — confirmed.  For every axis size `S > 0`, `maxTileDimension`, and
overlap ratio `r`, the per-axis tile count computed by the planner equals
`ceil((S / max(1, maxTileDimension) - r) / (1 - r))` clamped to `[1, 64]`,
and whenever `r ≥ 1` the result is exactly `64` (the code returns before
any division is reached). -/
theorem C4_grid_count_formula (S m r : ℚ) (hS : 0 < S) :
    (r < 1 →
      computeSmartGridCount S m r =
        Max.max 1 (Min.min 64 (⌈(S / Max.max 1 m - r) / (1 - r)⌉ : ℤ))) ∧
    (1 ≤ r → computeSmartGridCount S m r = 64) := by
  constructor
  · intro hr
    exact computeSmartGridCount_eq S m r hr
  · intro hr
    unfold computeSmartGridCount smartGridMaxCount
    have hden : (1 - r ≤ 0) := by linarith
    simp [hden]

/-- Witness for `C4_grid_count_formula` at `S = 2000`, `m = 1024`,
`r = 1/10` and at `r = 3/2`. -/
theorem C4_grid_count_formula_witness :
    computeSmartGridCount 2000 1024 (1/10) =
      Max.max 1 (Min.min 64 (⌈((2000 : ℚ) / Max.max 1 1024 - 1/10) / (1 - 1/10)⌉ : ℤ)) ∧
    computeSmartGridCount 2000 1024 (3/2) = 64 :=
  ⟨(C4_grid_count_formula 2000 1024 (1/10) (by norm_num)).1 (by norm_num),
   (C4_grid_count_formula 2000 1024 (3/2) (by norm_num)).2 (by norm_num)⟩

/-! ## Theorems for claim C2 (adjacent-tile overlap) -/

theorem mem_calculateGrid {w h : ℚ} {rows cols : ℕ} {ov : ℚ} {t : Tile} :
    t ∈ calculateGrid w h rows cols ov ↔
      ∃ r c, r < rows ∧ c < cols ∧ t = gridTile w h rows cols ov r c := by
  simp only [calculateGrid, List.mem_flatMap, List.mem_map, List.mem_range]
  constructor
  · rintro ⟨r, hr, c, hc, rfl⟩
    exact ⟨r, c, hr, hc, rfl⟩
  · rintro ⟨r, c, hr, hc, rfl⟩
    exact ⟨r, hr, c, hc, rfl⟩

/-- The denominator `n - (n-1)·r` of the tile-dimension formula is positive
for `n ≥ 1` and `0 ≤ r < 1`. -/
theorem grid_denom_pos (n : ℕ) (r : ℚ) (hn : 1 ≤ n) (hr0 : 0 ≤ r) (hr1 : r < 1) :
    0 < (n : ℚ) - ((n : ℚ) - 1) * r := by
  have h1 : (1 : ℚ) ≤ (n : ℚ) := by exact_mod_cast hn
  nlinarith

/-- C2 — counterexample.  In the grid `calculateGrid 300 100 1 2 (1/2)`
the two horizontally adjacent tiles share a band of width `100`
(`= r · tileW`), whereas the claim's formula `r · (tileW - overlapW)`
gives `50`. -/
theorem C2_counterexample :
    gridTile 300 100 1 2 (1/2) 0 0 ∈ calculateGrid 300 100 1 2 (1/2) ∧
    gridTile 300 100 1 2 (1/2) 0 1 ∈ calculateGrid 300 100 1 2 (1/2) ∧
    (gridTile 300 100 1 2 (1/2) 0 0).r = (gridTile 300 100 1 2 (1/2) 0 1).r ∧
    (gridTile 300 100 1 2 (1/2) 0 1).c = (gridTile 300 100 1 2 (1/2) 0 0).c + 1 ∧
    overlapBandX (gridTile 300 100 1 2 (1/2) 0 0) (gridTile 300 100 1 2 (1/2) 0 1) = 100 ∧
    (1/2 : ℚ) *
        ((gridTile 300 100 1 2 (1/2) 0 0).w -
          (gridTile 300 100 1 2 (1/2) 0 0).w * (1/2)) = 50 ∧
    (100 : ℚ) ≠ 50 := by
  refine ⟨mem_calculateGrid.mpr ⟨0, 0, by omega, by omega, rfl⟩,
          mem_calculateGrid.mpr ⟨0, 1, by omega, by omega, rfl⟩, rfl, rfl, ?_, ?_, by norm_num⟩
  · simp only [overlapBandX, gridTile]
    norm_num
  · simp only [gridTile]
    norm_num

/-- C2 — amended.  For every grid produced by `calculateGrid` with
`0 ≤ r < 1` and nonnegative image dimensions, any two horizontally
(resp. vertically) adjacent tiles overlap by exactly `r · tileW`
(resp. `r · tileH`): the shared band is the overlap fraction of the FULL
tile dimension (the code's `overlapW = tileW * overlap`), not of the
non-overlapping part. -/
theorem C2_adjacent_overlap (w h : ℚ) (rows cols : ℕ) (r : ℚ)
    (hw : 0 ≤ w) (hh : 0 ≤ h) (hr0 : 0 ≤ r) (hr1 : r < 1) :
    ∀ t1 t2, t1 ∈ calculateGrid w h rows cols r → t2 ∈ calculateGrid w h rows cols r →
      (t1.r = t2.r → t2.c = t1.c + 1 → overlapBandX t1 t2 = r * t1.w) ∧
      (t1.c = t2.c → t2.r = t1.r + 1 → overlapBandY t1 t2 = r * t1.h) := by
  intro t1 t2 h1 h2
  obtain ⟨r1, c1, hr1m, hc1, rfl⟩ := mem_calculateGrid.mp h1
  obtain ⟨r2, c2, hr2m, hc2, rfl⟩ := mem_calculateGrid.mp h2
  constructor
  · intro _ hcc
    simp only [gridTile] at hcc ⊢
    subst hcc
    have hD : 0 < (cols : ℚ) - ((cols : ℚ) - 1) * r :=
      grid_denom_pos cols r (by omega) hr0 hr1
    have hT : 0 ≤ w / ((cols : ℚ) - ((cols : ℚ) - 1) * r) := div_nonneg hw hD.le
    set T := w / ((cols : ℚ) - ((cols : ℚ) - 1) * r) with hTdef
    have hstep : 0 ≤ T - T * r := by nlinarith
    have hle : (c1 : ℚ) * (T - T * r) ≤ ((c1 + 1 : ℕ) : ℚ) * (T - T * r) := by
      push_cast
      nlinarith
    unfold overlapBandX
    simp only [gridTile]
    rw [min_eq_left (by linarith), max_eq_right hle]
    push_cast
    ring
  · intro _ hrr
    simp only [gridTile] at hrr ⊢
    subst hrr
    have hD : 0 < (rows : ℚ) - ((rows : ℚ) - 1) * r :=
      grid_denom_pos rows r (by omega) hr0 hr1
    have hT : 0 ≤ h / ((rows : ℚ) - ((rows : ℚ) - 1) * r) := div_nonneg hh hD.le
    set T := h / ((rows : ℚ) - ((rows : ℚ) - 1) * r) with hTdef
    have hstep : 0 ≤ T - T * r := by nlinarith
    have hle : (r1 : ℚ) * (T - T * r) ≤ ((r1 + 1 : ℕ) : ℚ) * (T - T * r) := by
      push_cast
      nlinarith
    unfold overlapBandY
    simp only [gridTile]
    rw [min_eq_left (by linarith), max_eq_right hle]
    push_cast
    ring

/-- Witness for `C2_adjacent_overlap` on the grid
`calculateGrid 300 100 1 2 (1/10)`. -/
theorem C2_adjacent_overlap_witness :
    overlapBandX (gridTile 300 100 1 2 (1/10) 0 0) (gridTile 300 100 1 2 (1/10) 0 1) =
      (1/10) * (gridTile 300 100 1 2 (1/10) 0 0).w :=
  (C2_adjacent_overlap 300 100 1 2 (1/10) (by norm_num) (by norm_num) (by norm_num) (by norm_num)
      (gridTile 300 100 1 2 (1/10) 0 0) (gridTile 300 100 1 2 (1/10) 0 1)
      (mem_calculateGrid.mpr ⟨0, 0, by omega, by omega, rfl⟩)
      (mem_calculateGrid.mpr ⟨0, 1, by omega, by omega, rfl⟩)).1 rfl rfl

/-! ## Per-tile status machine (`processSingleTile`, `regenerateTile`,
worker loop of `processAll`, from `src/lib/TileGrid.svelte`)

The generation call (`generateImage` / `generateMockTile` / the
`save_image_resized` invoke) is the only fallible step of
`processSingleTile`'s `try` block; its outcome is abstracted as a
`GenOutcome` parameter. -/

inductive GenOutcome where
  | success
  | failure (msg : String)
deriving Repr, DecidableEq

/-- A `dispatch('log', { type, message })` event. -/
structure LogEntry where
  kind : String
  message : String
deriving Repr, DecidableEq

/-- `tiles[index].status = s` — in-place update of one array slot. -/
def setTileStatus : List Tile → ℕ → TileStatus → List Tile
  | [], _, _ => []
  | t :: ts, 0, s => { t with status := s } :: ts
  | t :: ts, n + 1, s => t :: setTileStatus ts n s

/-- The first phase of `processSingleTile`:
`const tile = tiles[index]; if (!tile) return;`
then `tiles[index].status = 'processing'`.  Note that it runs for ANY
current status of the tile. -/
def processStart (tiles : List Tile) (index : ℕ) : List Tile :=
  match tiles[index]? with
  | none => tiles
  | some _ => setTileStatus tiles index .processing

def statusOfOutcome : GenOutcome → TileStatus
  | .success => .done
  | .failure _ => .error

/-- `processSingleTile` from `src/lib/TileGrid.svelte` (lines 912-988),
modelled on its status/log footprint: mark `processing`, run the
generation step, then mark `done` (with a success log) or `error` (with
an error log carrying the exception message). -/
def processSingleTile (tiles : List Tile) (index : ℕ) (outcome : GenOutcome) :
    List Tile × List LogEntry :=
  match tiles[index]? with
  | none => (tiles, [])
  | some tile =>
    let tiles1 := setTileStatus tiles index .processing
    match outcome with
    | .success =>
        (setTileStatus tiles1 index .done,
         [⟨"success", "Tile " ++ toString tile.r ++ "," ++ toString tile.c ++ " processed."⟩])
    | .failure msg =>
        (setTileStatus tiles1 index .error,
         [⟨"error", "Tile " ++ toString tile.r ++ "," ++ toString tile.c ++ ": " ++ msg⟩])

/-- `regenerateTile` from `src/lib/TileGrid.svelte` (lines 1095-1107):
after ensuring tile paths exist (which does not touch statuses) it calls
`processSingleTile index` directly — the tile is NOT reset to `pending`
first. -/
def regenerateTile (tiles : List Tile) (index : ℕ) (outcome : GenOutcome) :
    List Tile × List LogEntry :=
  processSingleTile tiles index outcome

/-- One worker of `processAll` draining the sub-sequence of queue indices
it wins from the shared FIFO queue, sequentially (`await` inside the
`while` loop). -/
def runWorker (tiles : List Tile) (queue : List ℕ) (outcome : ℕ → GenOutcome) :
    List Tile × List LogEntry :=
  match queue with
  | [] => (tiles, [])
  | i :: rest =>
    let p := processSingleTile tiles i (outcome i)
    let q := runWorker p.1 rest outcome
    (q.1, p.2 ++ q.2)

theorem setTileStatus_length :
    ∀ (ts : List Tile) (i : ℕ) (s : TileStatus),
      (setTileStatus ts i s).length = ts.length := by
  intro ts
  induction ts with
  | nil => intro i s; rfl
  | cons t ts ih =>
    intro i s
    cases i with
    | zero => rfl
    | succ n => simp [setTileStatus, ih]

theorem setTileStatus_getElem?_self :
    ∀ (ts : List Tile) (i : ℕ) (s : TileStatus),
      (setTileStatus ts i s)[i]? = ts[i]?.map (fun t => { t with status := s }) := by
  intro ts
  induction ts with
  | nil => intro i s; cases i <;> rfl
  | cons t ts ih =>
    intro i s
    cases i with
    | zero => simp [setTileStatus]
    | succ n => simpa [setTileStatus] using ih n s

theorem setTileStatus_getElem?_ne :
    ∀ (ts : List Tile) (i : ℕ) (s : TileStatus) (j : ℕ), j ≠ i →
      (setTileStatus ts i s)[j]? = ts[j]? := by
  intro ts
  induction ts with
  | nil => intro i s j _; rfl
  | cons t ts ih =>
    intro i s j hne
    cases i with
    | zero =>
      cases j with
      | zero => exact absurd rfl hne
      | succ m => simp [setTileStatus]
    | succ n =>
      cases j with
      | zero => simp [setTileStatus]
      | succ m => simpa [setTileStatus] using ih n s m (by omega)

theorem processSingleTile_length (tiles : List Tile) (i : ℕ) (o : GenOutcome) :
    (processSingleTile tiles i o).1.length = tiles.length := by
  unfold processSingleTile
  cases h : tiles[i]? with
  | none => rfl
  | some t => cases o <;> simp [setTileStatus_length]

theorem processSingleTile_getElem?_ne (tiles : List Tile) (i : ℕ) (o : GenOutcome)
    (j : ℕ) (hne : j ≠ i) :
    (processSingleTile tiles i o).1[j]? = tiles[j]? := by
  unfold processSingleTile
  cases h : tiles[i]? with
  | none => rfl
  | some t =>
    cases o <;> simp [setTileStatus_getElem?_ne _ _ _ _ hne]

theorem processSingleTile_getElem?_self (tiles : List Tile) (i : ℕ) (o : GenOutcome)
    (t : Tile) (h : tiles[i]? = some t) :
    (processSingleTile tiles i o).1[i]? = some { t with status := statusOfOutcome o } := by
  unfold processSingleTile
  rw [h]
  cases o <;>
    simp [setTileStatus_getElem?_self, setTileStatus_getElem?_ne, h, statusOfOutcome]

theorem runWorker_getElem?_not_mem :
    ∀ (queue : List ℕ) (tiles : List Tile) (outcome : ℕ → GenOutcome) (j : ℕ),
      j ∉ queue → (runWorker tiles queue outcome).1[j]? = tiles[j]? := by
  intro queue
  induction queue with
  | nil => intro tiles outcome j _; rfl
  | cons i rest ih =>
    intro tiles outcome j hj
    simp only [List.mem_cons, not_or] at hj
    unfold runWorker
    rw [ih _ outcome j hj.2, processSingleTile_getElem?_ne _ _ _ _ hj.1]

/-- Final status of every queued (in-range) tile after a sequential worker
drain: determined solely by that tile's own generation outcome. -/
theorem runWorker_final_status :
    ∀ (queue : List ℕ) (tiles : List Tile) (outcome : ℕ → GenOutcome),
      queue.Nodup →
      ∀ j ∈ queue, ∀ t, tiles[j]? = some t →
        (runWorker tiles queue outcome).1[j]? =
          some { t with status := statusOfOutcome (outcome j) } := by
  intro queue
  induction queue with
  | nil => intro tiles outcome _ j hj; cases hj
  | cons i rest ih =>
    intro tiles outcome hnd j hj t ht
    have hnd' := List.nodup_cons.mp hnd
    unfold runWorker
    rcases List.mem_cons.mp hj with rfl | hmem
    · rw [runWorker_getElem?_not_mem rest _ outcome j hnd'.1]
      exact processSingleTile_getElem?_self tiles j (outcome j) t ht
    · have ht' : (processSingleTile tiles i (outcome i)).1[j]? = some t := by
        by_cases hij : j = i
        · subst hij
          exact absurd hmem hnd'.1
        · rw [processSingleTile_getElem?_ne _ _ _ _ hij]
          exact ht
      exact ih _ outcome hnd'.2 j hmem t ht'

/-- A tile that has already completed successfully (status `done`), as it
sits in the `tiles` array right before a user clicks "Regenerate". -/
def sampleDoneTile : Tile :=
  { r := 0, c := 0, x := 0, y := 0, w := 0, h := 0,
    status := .done, path := "p", originalPath := "q" }

/-- `sampleDoneTile` with its status forced to `processing`. -/
def sampleProcessingTile : Tile :=
  { r := 0, c := 0, x := 0, y := 0, w := 0, h := 0,
    status := .processing, path := "p", originalPath := "q" }

/-- C3 — counterexample.  A tile whose status is `done` (not `pending`)
is transitioned straight to `processing` by `processSingleTile` — this is
exactly what a user-triggered `regenerateTile` does, with no reset to
`pending` in between. -/
theorem C3_counterexample :
    sampleDoneTile.status ≠ .pending ∧
    ((processStart [sampleDoneTile] 0).getD 0 default).status = .processing := by
  constructor
  · decide
  · rfl

/-- C3 — amended.  `processSingleTile` first sets the indexed tile's
status to `processing` REGARDLESS of its current status (`pending`,
`done` and `error` included; `regenerateTile` relies on this to reprocess
a tile without resetting it to `pending`), then terminates the tile at
`done` on success or `error` on failure, leaving every other tile
untouched. -/
theorem C3_status_transitions (tiles : List Tile) (index : ℕ) (outcome : GenOutcome)
    (t : Tile) (h : tiles[index]? = some t) :
    (processStart tiles index)[index]? = some { t with status := .processing } ∧
    (processSingleTile tiles index outcome).1[index]? =
      some { t with status := statusOfOutcome outcome } ∧
    (∀ j, j ≠ index → (processSingleTile tiles index outcome).1[j]? = tiles[j]?) := by
  refine ⟨?_, processSingleTile_getElem?_self tiles index outcome t h,
          fun j hj => processSingleTile_getElem?_ne tiles index outcome j hj⟩
  unfold processStart
  rw [h, setTileStatus_getElem?_self, h]
  rfl

/-- Witness for `C3_status_transitions`: a `done` tile is sent back
through `processing` to `done` with no `pending` reset. -/
theorem C3_status_transitions_witness :
    (processStart [sampleDoneTile] 0)[0]? = some sampleProcessingTile :=
  (C3_status_transitions [sampleDoneTile] 0 .success sampleDoneTile rfl).1

/-- C7 — confirmed.  When the generation call for a tile throws, that
tile's status is set to `error`, the thrown message is recorded in the
single dispatched log entry, no other tile's entry is altered, and a
worker loop that encounters the failure still processes every other
queued tile to its own outcome (no abort). -/
theorem C7_error_isolation (tiles : List Tile) (index : ℕ) (msg : String)
    (t : Tile) (h : tiles[index]? = some t) :
    ((processSingleTile tiles index (.failure msg)).1[index]? =
        some { t with status := .error }) ∧
    ((processSingleTile tiles index (.failure msg)).2 =
        [⟨"error", "Tile " ++ toString t.r ++ "," ++ toString t.c ++ ": " ++ msg⟩]) ∧
    (∀ j, j ≠ index → (processSingleTile tiles index (.failure msg)).1[j]? = tiles[j]?) ∧
    (∀ (queue : List ℕ) (outcome : ℕ → GenOutcome), queue.Nodup →
      ∀ j ∈ queue, ∀ u, tiles[j]? = some u →
        (runWorker tiles queue outcome).1[j]? =
          some { u with status := statusOfOutcome (outcome j) }) := by
  refine ⟨processSingleTile_getElem?_self tiles index _ t h, ?_,
          fun j hj => processSingleTile_getElem?_ne tiles index _ j hj,
          fun queue outcome hnd j hj u hu =>
            runWorker_final_status queue tiles outcome hnd j hj u hu⟩
  unfold processSingleTile
  rw [h]

/-- A second, still-pending tile sitting after `sampleDoneTile`. -/
def sampleTileB : Tile :=
  { r := 0, c := 1, x := 0, y := 0, w := 0, h := 0,
    status := .pending, path := "", originalPath := "" }

/-- Outcome oracle for the witness run: tile 0 fails, the rest succeed. -/
def sampleOutcome : ℕ → GenOutcome
  | 0 => .failure "boom"
  | _ => .success

/-- Witness for `C7_error_isolation`: in a two-tile run where tile 0's
generation throws `"boom"`, the error log records the message and tile 1
still completes as `done`. -/
theorem C7_error_isolation_witness :
    (processSingleTile [sampleDoneTile, sampleTileB] 0 (GenOutcome.failure "boom")).2 =
      [⟨"error", "Tile 0,0: boom"⟩] ∧
    (runWorker [sampleDoneTile, sampleTileB] [0, 1] sampleOutcome).1[1]? =
      some { sampleTileB with status := .done } := by
  have h := C7_error_isolation [sampleDoneTile, sampleTileB] 0 "boom" sampleDoneTile rfl
  refine ⟨?_, ?_⟩
  · rw [h.2.1]
    rfl
  · exact h.2.2.2 [0, 1] sampleOutcome (by decide) 1 (by decide) sampleTileB rfl

/-! ## The shared FIFO queue of `processAll` (claim C6)

`processAll` (`src/lib/TileGrid.svelte` 1054-1084) builds
`const queue = [...tiles.keys()]` and launches
`Array(concurrency).fill(null).map(async () => { while (queue.length > 0)
{ const index = queue.shift(); if (index !== undefined) { if
(!isProcessing) break; await processSingleTile(index); } } })`.

JavaScript is single-threaded: the `queue.length > 0` test and the
`queue.shift()` belong to one synchronous segment (no `await` between
them), so a scheduler step is "one worker shifts the queue head".  The
`isProcessing` flag read after the shift decides whether the dequeued
index is passed to `processSingleTile` (`live = true`) or the worker
breaks (`live = false`).  A schedule is an arbitrary interleaving of such
steps, which over-approximates every real run. -/

structure PoolState where
  queue : List ℕ
  workers : List (List (ℕ × Bool))
deriving Repr, DecidableEq

/-- The state right after `processAll` builds the queue: all tile indices
in FIFO order, `concurrency` workers with empty histories. -/
def initPool (n concurrency : ℕ) : PoolState :=
  { queue := List.range n, workers := List.replicate concurrency [] }

/-- One scheduler step: worker `w` (a no-op id ≥ the worker count never
occurs in a real run) pops the queue head; `live` records whether
`isProcessing` still held, i.e. whether the index reaches
`processSingleTile`. -/
def poolStep (s : PoolState) (w : ℕ) (live : Bool) : PoolState :=
  match s.queue with
  | [] => s
  | i :: rest =>
    if h : w < s.workers.length then
      { queue := rest,
        workers := s.workers.set w (s.workers.get ⟨w, h⟩ ++ [(i, live)]) }
    else s

def runPool (s : PoolState) (sched : List (ℕ × Bool)) : PoolState :=
  sched.foldl (fun st p => poolStep st p.1 p.2) s

/-- All indices ever dequeued, over all workers. -/
def dequeuedAll (s : PoolState) : List ℕ :=
  s.workers.flatten.map Prod.fst

/-- All indices actually passed to `processSingleTile`. -/
def processedAll (s : PoolState) : List ℕ :=
  (s.workers.flatten.filter Prod.snd).map Prod.fst

theorem flatten_set_perm {α : Type} :
    ∀ (l : List (List α)) (w : ℕ) (x : α) (h : w < l.length),
      (l.set w (l.get ⟨w, h⟩ ++ [x])).flatten.Perm (l.flatten ++ [x]) := by
  intro l
  induction l with
  | nil => intro w x h; exact absurd h (by simp)
  | cons a t ih =>
    intro w x h
    cases w with
    | zero =>
      simp only [List.set, List.get, List.flatten_cons, List.append_assoc]
      exact List.Perm.append_left a List.perm_append_comm
    | succ m =>
      simp only [List.set, List.get, List.flatten_cons, ← List.append_assoc]
      have hm : m < t.length := by simpa using h
      calc (a ++ (t.set m (t.get ⟨m, hm⟩ ++ [x])).flatten).Perm
            (a ++ (t.flatten ++ [x])) := List.Perm.append_left a (ih m x hm)
        _ = (a ++ t.flatten) ++ [x] := by rw [List.append_assoc]

theorem poolStep_workers_length (s : PoolState) (w : ℕ) (live : Bool) :
    (poolStep s w live).workers.length = s.workers.length := by
  unfold poolStep
  cases s.queue with
  | nil => rfl
  | cons i rest =>
    by_cases h : w < s.workers.length <;> simp [h]

theorem runPool_workers_length (sched : List (ℕ × Bool)) :
    ∀ s : PoolState, (runPool s sched).workers.length = s.workers.length := by
  induction sched with
  | nil => intro s; rfl
  | cons p rest ih =>
    intro s
    show (runPool (poolStep s p.1 p.2) rest).workers.length = _
    rw [ih, poolStep_workers_length]

theorem poolStep_perm (s : PoolState) (w : ℕ) (live : Bool) :
    (dequeuedAll (poolStep s w live) ++ (poolStep s w live).queue).Perm
      (dequeuedAll s ++ s.queue) := by
  cases hq : s.queue with
  | nil =>
    have hps : poolStep s w live = s := by
      unfold poolStep
      rw [hq]
    rw [hps, hq]
  | cons i rest =>
    by_cases h : w < s.workers.length
    · have hps : poolStep s w live =
          { queue := rest,
            workers := s.workers.set w (s.workers.get ⟨w, h⟩ ++ [(i, live)]) } := by
        unfold poolStep
        rw [hq]
        simp [h]
      rw [hps]
      have h1 := (flatten_set_perm s.workers w (i, live) h).map Prod.fst
      simp only [List.map_append] at h1
      exact List.Perm.trans (List.Perm.append_right rest h1) (by simp [dequeuedAll])
    · have hps : poolStep s w live = s := by
        unfold poolStep
        rw [hq]
        simp [h]
      rw [hps, hq]

theorem runPool_perm (sched : List (ℕ × Bool)) :
    ∀ s : PoolState,
      (dequeuedAll (runPool s sched) ++ (runPool s sched).queue).Perm
        (dequeuedAll s ++ s.queue) := by
  induction sched with
  | nil => intro s; exact List.Perm.refl _
  | cons p rest ih =>
    intro s
    exact (ih (poolStep s p.1 p.2)).trans (poolStep_perm s p.1 p.2)

theorem processedAll_count_le (s : PoolState) (i : ℕ) :
    (processedAll s).count i ≤ (dequeuedAll s).count i :=
  List.Sublist.count_le ((List.filter_sublist s.workers.flatten).map Prod.fst) i

theorem runPool_count (n c : ℕ) (sched : List (ℕ × Bool)) (i : ℕ) :
    (dequeuedAll (runPool (initPool n c) sched)).count i +
      (runPool (initPool n c) sched).queue.count i = (List.range n).count i := by
  have h := (runPool_perm sched (initPool n c)).count_eq i
  rw [List.count_append, List.count_append] at h
  have h0 : (dequeuedAll (initPool n c)).count i = 0 := by
    simp [dequeuedAll, initPool, List.flatten_replicate_nil]
  rw [h0] at h
  simpa [initPool] using h

/-- C6 — confirmed.  For every run of `processAll` with any
`concurrency ≥ 1` and any scheduler interleaving: exactly `concurrency`
workers exist, every tile index is dequeued from the shared FIFO queue at
most once overall (hence by exactly one worker), indices reach
`processSingleTile` at most as often as they are dequeued (so no index is
processed twice), and if the run drains the queue then every tile index
`i < n` is dequeued exactly once. -/
theorem C6_queue_exclusivity (n c : ℕ) (hc : 1 ≤ c) (sched : List (ℕ × Bool)) :
    (runPool (initPool n c) sched).workers.length = c ∧
    (∀ i, (dequeuedAll (runPool (initPool n c) sched)).count i ≤ 1) ∧
    (∀ i, (processedAll (runPool (initPool n c) sched)).count i ≤
          (dequeuedAll (runPool (initPool n c) sched)).count i) ∧
    ((runPool (initPool n c) sched).queue = [] →
      ∀ i < n, (dequeuedAll (runPool (initPool n c) sched)).count i = 1) := by
  refine ⟨?_, ?_, fun i => processedAll_count_le _ i, ?_⟩
  · rw [runPool_workers_length]
    simp [initPool]
  · intro i
    have h := runPool_count n c sched i
    have hr : (List.range n).count i ≤ 1 :=
      List.nodup_iff_count_le_one.mp (List.nodup_range n) i
    omega
  · intro hq i hi
    have h := runPool_count n c sched i
    rw [hq] at h
    simp only [List.count_nil, Nat.add_zero] at h
    rw [h]
    exact List.count_eq_one_of_mem (List.nodup_range n) (List.mem_range.mpr hi)

/-- Witness for `C6_queue_exclusivity`: two workers drain a two-tile
queue; afterwards the queue is empty and tile 0 was dequeued exactly
once. -/
theorem C6_queue_exclusivity_witness :
    (runPool (initPool 2 2) [(0, true), (1, true)]).workers.length = 2 ∧
    (dequeuedAll (runPool (initPool 2 2) [(0, true), (1, true)])).count 0 = 1 :=
  ⟨(C6_queue_exclusivity 2 2 (by decide) [(0, true), (1, true)]).1,
   (C6_queue_exclusivity 2 2 (by decide) [(0, true), (1, true)]).2.2.2 (by decide) 0 (by decide)⟩

/-! ## Reactive re-merge (claim C8)

`src/lib/TileGrid.svelte` lines 454-459:

```js
$: if ((bgRemovalEnabled !== prevBG || keyColor !== prevKey ||
        tolerance !== prevTol) && tiles.length > 0 &&
       tiles.some(t => t.status === 'done') && !isProcessing && !isMerging) {
    prevBG = bgRemovalEnabled; prevKey = keyColor; prevTol = tolerance;
    mergeAll();
}
```

and `mergeAll` (lines 990-1015), whose only external call is
`invoke('merge_img', { tiles: tiles.map(t => ({r, c, path})), ... })`.
External calls the component can make are reified as `ExtCall` values; the
trace of an action is the list of calls it performs. -/

/-- An external invocation made by the TileGrid component: either a Rust
backend `invoke` or the network client `generateImage` from
`src/lib/api.ts`. -/
inductive ExtCall where
  | invokeMergeImg (tiles : List (ℕ × ℕ × String)) (originalW originalH : ℤ)
      (overlapRatio : ℚ) (keyColor : String) (removeBg : Bool) (tolerance : ℚ)
  | invokeSplitImg (path : String) (rows cols : ℕ) (overlapRatio : ℚ)
  | invokeLoadImage (path : String)
  | invokeSaveImageResized (path : String)
  | callGenerateImage (prompt : String)
deriving Repr, DecidableEq

def ExtCall.isGenerate : ExtCall → Bool
  | .callGenerateImage _ => true
  | _ => false

/-- The external-call trace of `mergeAll`: exactly one `merge_img` invoke
over the tiles' cached result paths (`t.path`); no generation call. -/
def mergeAllCalls (tiles : List Tile) (originalW originalH : ℚ)
    (overlap : ℚ) (keyColor : String) (bgRemovalEnabled : Bool) (tolerance : ℚ) :
    List ExtCall :=
  [.invokeMergeImg (tiles.map fun t => (t.r, t.c, t.path))
    (jsRound originalW) (jsRound originalH) overlap
    (if bgRemovalEnabled then keyColor else "white") bgRemovalEnabled tolerance]

/-- The guard of the reactive re-merge block (lines 454-459). -/
def reMergeGuard (bgRemovalEnabled prevBG : Bool) (keyColor prevKey : String)
    (tolerance prevTol : ℚ) (tiles : List Tile) (isProcessing isMerging : Bool) : Bool :=
  (bgRemovalEnabled != prevBG || keyColor != prevKey || decide (tolerance ≠ prevTol)) &&
    decide (0 < tiles.length) && tiles.any (fun t => decide (t.status = .done)) &&
    !isProcessing && !isMerging

/-- C8 — confirmed.  Whenever the key color, the tolerance, or the
background-removal flag changes while some tile is `done` and neither
processing nor a merge is in flight (the reactive guard), the triggered
action is `mergeAll`, whose trace is exactly one `merge_img` backend call
over the tiles' cached result paths — and contains no `generateImage`
call. -/
theorem C8_remerge_no_generation (bgRemovalEnabled prevBG : Bool)
    (keyColor prevKey : String) (tolerance prevTol : ℚ) (tiles : List Tile)
    (isProcessing isMerging : Bool) (originalW originalH overlap : ℚ)
    (hguard : reMergeGuard bgRemovalEnabled prevBG keyColor prevKey
      tolerance prevTol tiles isProcessing isMerging = true) :
    (∃ t ∈ tiles, t.status = .done) ∧
    isProcessing = false ∧ isMerging = false ∧
    (∀ call ∈ mergeAllCalls tiles originalW originalH
        overlap keyColor bgRemovalEnabled tolerance, call.isGenerate = false) ∧
    mergeAllCalls tiles originalW originalH overlap keyColor bgRemovalEnabled tolerance =
      [.invokeMergeImg (tiles.map fun t => (t.r, t.c, t.path))
        (jsRound originalW) (jsRound originalH) overlap
        (if bgRemovalEnabled then keyColor else "white") bgRemovalEnabled tolerance] := by
  unfold reMergeGuard at hguard
  simp only [Bool.and_eq_true, Bool.not_eq_true', List.any_eq_true, beq_iff_eq,
    decide_eq_true_eq] at hguard
  obtain ⟨⟨⟨_, hdone⟩, hproc⟩, hmerge⟩ := hguard
  refine ⟨hdone, hproc, hmerge, ?_, rfl⟩
  intro call hcall
  simp only [mergeAllCalls, List.mem_singleton] at hcall
  subst hcall
  rfl

/-- Witness for `C8_remerge_no_generation`: the key color changed from
`"green"` to `"white"` with one `done` tile and idle flags. -/
theorem C8_remerge_no_generation_witness :
    ∃ t ∈ [sampleDoneTile], t.status = TileStatus.done :=
  (C8_remerge_no_generation false false "white" "green" 10 10 [sampleDoneTile]
    false false 300 100 (1/10) (by decide)).1

/-! ## Network client response handling (`src/lib/api.ts`, claims C9/C10)

The parsed JSON body of a `generateContent` response is modelled
structurally: `candidates[0].content.parts`, each part optionally holding
`text` and/or `inline_data` / `inlineData` (both spellings occur).
JavaScript truthiness of a string field (`if (inlineData?.data)`,
`text.trim()`) means "present and non-empty". -/

structure InlineData where
  data : Option String
  mime_type : Option String
  mimeType : Option String
deriving Repr, DecidableEq

structure RespPart where
  text : Option String
  inline_data : Option InlineData
  inlineData : Option InlineData
deriving Repr, DecidableEq

/-- One entry of `candidates`; `parts` stands for the optional-chained
`content?.parts` (a missing `content` and a missing `parts` are
observationally identical through `?.`, so the two `Option` levels are
collapsed into one). -/
structure Candidate where
  parts : Option (List RespPart)
deriving Repr, DecidableEq

/-- The HTTP response as `generateImage` observes it: the fetch status
plus the parsed JSON body (candidate list). -/
structure ApiResponse where
  ok : Bool
  status : ℕ
  errText : String
  candidates : List Candidate
deriving Repr, DecidableEq

/-- A decoded image payload (`b64toBlob(data, mime)`). -/
structure BlobModel where
  data : String
  mime : String
deriving Repr, DecidableEq

/-- JS truthiness of an optional string: present and non-empty. -/
def truthyStr : Option String → Bool
  | none => false
  | some s => !(s == "")

/-- `data?.candidates?.[0]?.content?.parts || []` — the first candidate's
content parts, or `[]` when anything along the chain is missing. -/
def extractResponseParts (r : ApiResponse) : List RespPart :=
  match r.candidates with
  | [] => []
  | c :: _ =>
    match c.parts with
    | none => []
    | some ps => ps

/-- `part?.inline_data || part?.inlineData`: any object is truthy in JS,
so a present `inline_data` shadows `inlineData` even if its `data` field
is unusable. -/
def inlineOf (p : RespPart) : Option InlineData :=
  match p.inline_data with
  | some d => some d
  | none => p.inlineData

/-- `inlineData.mime_type || inlineData.mimeType || 'image/png'` — the
first truthy (non-empty) mime string, defaulting to `image/png`. -/
def mimeOf (d : InlineData) : String :=
  if truthyStr d.mime_type then d.mime_type.getD ""
  else if truthyStr d.mimeType then d.mimeType.getD ""
  else "image/png"

/-- The image payload a single part contributes, if any. -/
def partImage (p : RespPart) : Option BlobModel :=
  match inlineOf p with
  | none => none
  | some d => if truthyStr d.data then some ⟨d.data.getD "", mimeOf d⟩ else none

/-- `extractFirstInlineImage` from `src/lib/api.ts` (lines 130-142): scan
the parts in order, return the first part with a truthy `inline_data` (or
`inlineData`) payload, decoded via `b64toBlob`. -/
def extractFirstInlineImage : List RespPart → Option BlobModel
  | [] => none
  | p :: rest =>
    match partImage p with
    | some b => some b
    | none => extractFirstInlineImage rest

/-- `generateImage` from `src/lib/api.ts` (lines 144-199), modelled from
the `fetch` response on: non-`ok` responses throw `API Error ...`; an
`ok` response without a locatable inline image throws `Model did not
return an image...` (the serialized-response snippet in that message is
abstracted); otherwise the first inline image is returned. -/
def generateImageResult (resp : ApiResponse) : Except String BlobModel :=
  if !resp.ok then
    .error ("API Error " ++ toString resp.status ++ ": " ++ resp.errText)
  else
    match extractFirstInlineImage (extractResponseParts resp) with
    | some b => .ok b
    | none => .error "Model did not return an image."

theorem extractFirstInlineImage_eq_some :
    ∀ (parts : List RespPart) (b : BlobModel),
      extractFirstInlineImage parts = some b ↔
        ∃ k : ℕ, (∀ j : ℕ, j < k → (parts[j]?).bind partImage = none) ∧
          (parts[k]?).bind partImage = some b := by
  intro parts
  induction parts with
  | nil =>
    intro b
    constructor
    · intro h
      cases h
    · rintro ⟨k, -, hk⟩
      simp at hk
  | cons p rest ih =>
    intro b
    constructor
    · intro h
      unfold extractFirstInlineImage at h
      cases hp : partImage p with
      | some b' =>
        rw [hp] at h
        cases h
        exact ⟨0, fun j hj => absurd hj (by omega), by simp [hp]⟩
      | none =>
        rw [hp] at h
        obtain ⟨k, hlt, hk⟩ := (ih b).mp h
        refine ⟨k + 1, ?_, by simpa using hk⟩
        intro j hj
        cases j with
        | zero => simp [hp]
        | succ m => simpa using hlt m (by omega)
    · rintro ⟨k, hlt, hk⟩
      unfold extractFirstInlineImage
      cases k with
      | zero =>
        simp only [List.getElem?_cons_zero, Option.some_bind] at hk
        rw [hk]
      | succ m =>
        have h0 : partImage p = none := by simpa using hlt 0 (by omega)
        rw [h0]
        exact (ih b).mpr ⟨m, fun j hj => by simpa using hlt (j + 1) (by omega),
          by simpa using hk⟩

/-- C9 — confirmed.  `generateImage` fails exactly when the HTTP response
is non-success or no inline image payload can be located among the first
candidate's content parts; on success it returns the first inline-data
image of those parts (all earlier parts contribute no image). -/
theorem C9_generateImage_result (resp : ApiResponse) :
    ((∃ b, generateImageResult resp = .ok b) ↔
      (resp.ok = true ∧
        (extractFirstInlineImage (extractResponseParts resp)).isSome = true)) ∧
    (∀ b, generateImageResult resp = .ok b →
      ∃ k : ℕ, (∀ j : ℕ, j < k → ((extractResponseParts resp)[j]?).bind partImage = none) ∧
        ((extractResponseParts resp)[k]?).bind partImage = some b) := by
  constructor
  · constructor
    · rintro ⟨b, hb⟩
      unfold generateImageResult at hb
      by_cases hok : resp.ok
      · simp only [hok, Bool.not_true, Bool.false_eq_true, if_false] at hb
        cases himg : extractFirstInlineImage (extractResponseParts resp) with
        | none => rw [himg] at hb; cases hb
        | some b' => exact ⟨hok, by simp [himg]⟩
      · simp only [Bool.not_eq_true] at hok
        simp [generateImageResult, hok] at hb
    · rintro ⟨hok, himg⟩
      rw [Option.isSome_iff_exists] at himg
      obtain ⟨b, hb⟩ := himg
      refine ⟨b, ?_⟩
      unfold generateImageResult
      simp [hok, hb]
  · intro b hb
    unfold generateImageResult at hb
    by_cases hok : resp.ok
    · simp only [hok, Bool.not_true, Bool.false_eq_true, if_false] at hb
      cases himg : extractFirstInlineImage (extractResponseParts resp) with
      | none => rw [himg] at hb; cases hb
      | some b' =>
        rw [himg] at hb
        cases hb
        exact (extractFirstInlineImage_eq_some _ b).mp himg
    · simp only [Bool.not_eq_true] at hok
      simp [generateImageResult, hok] at hb

/-- A text-only response part. -/
def sampleTextPart : RespPart :=
  { text := some "here you go", inline_data := none, inlineData := none }

/-- An inline-image response part. -/
def sampleImagePart : RespPart :=
  { text := none,
    inline_data := some { data := some "QUJD", mime_type := some "image/png",
                          mimeType := none },
    inlineData := none }

/-- A sample successful response: a text part followed by an inline-image
part. -/
def sampleResp : ApiResponse :=
  { ok := true, status := 200, errText := "",
    candidates := [{ parts := some [sampleTextPart, sampleImagePart] }] }

/-- Witness for `C9_generateImage_result` at `sampleResp`. -/
theorem C9_generateImage_result_witness :
    ∃ b, generateImageResult sampleResp = .ok b :=
  (C9_generateImage_result sampleResp).1.mpr ⟨rfl, by decide⟩

/-! ## Subject detection (`detectMainSubject`, `normalizeSubject`,
`isLikelySubject` from `src/lib/api.ts`, claim C10)

The string pipeline is modelled character-by-character over `List Char`.
JS regex character class `\s` and `String.prototype.trim` also cover some
Unicode spaces; the model covers the ASCII whitespace characters, which is
what the pipeline's own output alphabet (`[a-z0-9\s-]`) can contain.
`String.prototype.toLowerCase` is modelled on ASCII (`Char.toLower`);
non-ASCII letters are replaced by spaces downstream either way. -/

def jsWs (c : Char) : Bool :=
  c = ' ' || c = '\t' || c = '\n' || c = '\r' || c = '\x0b' || c = '\x0c'

def isLowerAlpha (c : Char) : Bool := 'a' ≤ c && c ≤ 'z'

def isAsciiLetter (c : Char) : Bool :=
  ('a' ≤ c && c ≤ 'z') || ('A' ≤ c && c ≤ 'Z')

def isDigitCh (c : Char) : Bool := '0' ≤ c && c ≤ '9'

def isEnumAlnum (c : Char) : Bool := isLowerAlpha c || isDigitCh c

/-- Split on every character satisfying `p` (JS `String.split` keeps
empty segments; callers filter them out, matching `.filter(Boolean)`). -/
def splitOnPred (p : Char → Bool) : List Char → List (List Char)
  | [] => [[]]
  | c :: t =>
    if p c then [] :: splitOnPred p t
    else
      match splitOnPred p t with
      | [] => [[c]]
      | s :: rest => (c :: s) :: rest

/-- The delimiter class of `raw.split(/\r?\n|[;,|]/)`.  Splitting on the
bare `\n` leaves the `\r` of a `\r\n` pair at a segment's tail, where the
segment-level `trim` removes it — same outcome as the regex. -/
def isDelim (c : Char) : Bool := c = '\n' || c = ';' || c = ',' || c = '|'

def dropTrailWhile (p : Char → Bool) (l : List Char) : List Char :=
  (l.reverse.dropWhile p).reverse

/-- `String.prototype.trim` (ASCII whitespace). -/
def jsTrimList (l : List Char) : List Char :=
  dropTrailWhile jsWs (l.dropWhile jsWs)

/-- `.replace(/\s+/g, ' ')`: every maximal whitespace run becomes one
space.  The flag records whether the previous character was whitespace. -/
def collapseWsAux : Bool → List Char → List Char
  | _, [] => []
  | prevWs, c :: t =>
    if jsWs c then
      if prevWs then collapseWsAux true t
      else ' ' :: collapseWsAux true t
    else c :: collapseWsAux false t

def collapseWs (l : List Char) : List Char := collapseWsAux false l

def backquoteChar : Char := Char.ofNat 96

def lbraceChar : Char := Char.ofNat 123

def rbraceChar : Char := Char.ofNat 125

/-- The class `["'`([{]` of the leading-wrapper strip. -/
def isOpenWrap (c : Char) : Bool :=
  c = '"' || c = '\'' || c = backquoteChar || c = '(' || c = '[' || c = lbraceChar

/-- The class `["')\]}]`-with-backquote of the trailing-wrapper strip. -/
def isCloseWrap (c : Char) : Bool :=
  c = '"' || c = '\'' || c = backquoteChar || c = ')' || c = ']' || c = rbraceChar

/-- `.replace(/^["'`([{]+|["'`)\]}]+$/g, '')`: remove the maximal leading
run of opening wrappers and the maximal trailing run of closing
wrappers. -/
def stripWraps (l : List Char) : List Char :=
  dropTrailWhile isCloseWrap (l.dropWhile isOpenWrap)

/-- The class `[.):\-]` of the enumeration-marker strip. -/
def isEnumDot (c : Char) : Bool := c = '.' || c = ')' || c = ':' || c = '-'

/-- The tail `\)?[.):\-]\s*` of the enumeration-marker regex, with the
greedy-`\)?`-then-backtrack behaviour: a consumed `)` is given back when
no `[.):\-]` character follows it (in which case the `)` itself can match
`[.):\-]`). -/
def enumTail : List Char → Option (List Char)
  | ')' :: d :: rest =>
    if isEnumDot d then some (rest.dropWhile jsWs)
    else some ((d :: rest).dropWhile jsWs)
  | d :: rest => if isEnumDot d then some (rest.dropWhile jsWs) else none
  | [] => none

/-- `.replace(/^\(?[a-z0-9]\)?[.):\-]\s*/i, '')`: strip an enumeration
marker like `a)`, `(1.`, `b -` from the front.  When the optional `(` is
present but the rest fails, the regex cannot re-anchor (the `(` is not
alphanumeric), so the input is returned unchanged. -/
def stripEnumMark (l : List Char) : List Char :=
  let attempt : Option (List Char) :=
    match l with
    | '(' :: a :: cs => if isEnumAlnum a then enumTail cs else none
    | _ => none
  match attempt with
  | some rest => rest
  | none =>
    match l with
    | a :: cs => if isEnumAlnum a then (enumTail cs).getD l else l
    | [] => l

/-- `.replace(/^(the|a|an)\s+/i, '')` on an already-lowercased input:
alternatives tried in order `the`, `a`, `an`; the matched article and the
whole following whitespace run are removed. -/
def stripArticle (l : List Char) : List Char :=
  match l with
  | 't' :: 'h' :: 'e' :: c :: rest =>
    if jsWs c then (c :: rest).dropWhile jsWs else l
  | 'a' :: c :: rest =>
    if jsWs c then (c :: rest).dropWhile jsWs
    else
      match c, rest with
      | 'n', c2 :: rest2 =>
        if jsWs c2 then (c2 :: rest2).dropWhile jsWs
        else l
      | _, _ => l
  | _ => l

/-- The output alphabet `[a-z0-9\s-]` of
`.replace(/[^a-z0-9\s-]/g, ' ')`. -/
def isKeptChar (c : Char) : Bool :=
  isLowerAlpha c || isDigitCh c || jsWs c || c = '-'

/-- The shared tail of both normalization paths: replace disallowed
characters by spaces, collapse whitespace runs, trim. -/
def scrubTail (l : List Char) : List Char :=
  jsTrimList (collapseWs (l.map fun c => if isKeptChar c then c else ' '))

/-- The per-segment cleaning chain of `normalizeSubject`
(`src/lib/api.ts` lines 107-115). -/
def cleanSegment (seg : List Char) : List Char :=
  scrubTail (stripArticle (stripEnumMark (stripWraps (seg.map Char.toLower))))

def invalidSubjects : List String :=
  ["unknown", "none", "n a", "n/a", "subject", "object"]

def toLowerStr (s : String) : String := String.mk (s.data.map Char.toLower)

def splitWsRuns (l : List Char) : List (List Char) :=
  (splitOnPred jsWs l).filter (fun w => w ≠ [])

/-- `isLikelySubject` from `src/lib/api.ts` (lines 83-97). -/
def isLikelySubject (s : String) : Bool :=
  if s == "" then false
  else if !(s.data.any isAsciiLetter) then false
  else if s.data.length < 3 then false
  else if (match s.data with | [c] => isAsciiLetter c | _ => false) then false
  else
    let words := splitWsRuns s.data
    if words.length == 0 || decide (words.length > 4) then false
    else if words.any (fun w => decide (w.length ≤ 1)) then false
    else if invalidSubjects.contains (toLowerStr s) then false
    else true

/-- First segment whose cleaned form passes `isLikelySubject` (the `for`
loop of `normalizeSubject`). -/
def firstValidSeg : List (List Char) → Option (List Char)
  | [] => none
  | seg :: rest =>
    let cl := cleanSegment seg
    if isLikelySubject (String.mk cl) then some cl else firstValidSeg rest

/-- `normalizeSubject` from `src/lib/api.ts` (lines 99-128): try each
trimmed non-empty segment through the cleaning chain, else fall back to
scrubbing the whole lowercased input; return `""` when nothing passes
`isLikelySubject`. -/
def normalizeSubject (raw : String) : String :=
  if raw == "" then ""
  else
    match firstValidSeg
        (((splitOnPred isDelim raw.data).map jsTrimList).filter fun l => l ≠ []) with
    | some cl => String.mk cl
    | none =>
      if isLikelySubject (String.mk (scrubTail (raw.data.map Char.toLower))) then
        String.mk (scrubTail (raw.data.map Char.toLower))
      else ""

def jsTrim (s : String) : String := String.mk (jsTrimList s.data)

/-- `extractFirstText` from `src/lib/api.ts` (lines 73-81): the first
part whose `text` is a string with non-empty trim, trimmed; else `""`. -/
def extractFirstText : List RespPart → String
  | [] => ""
  | p :: rest =>
    match p.text with
    | some t => if jsTrim t ≠ "" then jsTrim t else extractFirstText rest
    | none => extractFirstText rest

/-- The inner `runSubjectPrompt` of `detectMainSubject`
(`src/lib/api.ts` lines 213-244): non-`ok` responses throw, otherwise the
first text part is extracted. -/
def runSubjectPrompt (resp : ApiResponse) : Except String String :=
  if !resp.ok then
    .error ("Subject detection API Error " ++ toString resp.status ++ ": " ++ resp.errText)
  else .ok (extractFirstText (extractResponseParts resp))

/-- `detectMainSubject` from `src/lib/api.ts` (lines 201-266), modelled
on its two network attempts (the JPEG re-encode of the input image is
I/O that does not affect the returned string).  A failure of the FIRST
attempt propagates (no `try` around it); a failure of the retry is
swallowed and the fallback is returned. -/
def detectMainSubject (resp1 resp2 : ApiResponse) : Except String String :=
  match runSubjectPrompt resp1 with
  | .error e => .error e
  | .ok t1 =>
    if normalizeSubject t1 ≠ "" then .ok (normalizeSubject t1)
    else
      match runSubjectPrompt resp2 with
      | .error _ => .ok "main subject"
      | .ok t2 =>
        if normalizeSubject t2 ≠ "" then .ok (normalizeSubject t2)
        else .ok "main subject"

/-- The alphabet a non-empty `normalizeSubject` result can use: lowercase
ASCII letters, digits, hyphen, single spaces. -/
def isOutChar (c : Char) : Bool :=
  isLowerAlpha c || isDigitCh c || c = '-' || c = ' '

theorem mem_collapseWsAux :
    ∀ (l : List Char) (b : Bool) (c : Char),
      c ∈ collapseWsAux b l → c = ' ' ∨ (c ∈ l ∧ jsWs c = false) := by
  intro l
  induction l with
  | nil => intro b c h; cases h
  | cons x t ih =>
    intro b c h
    unfold collapseWsAux at h
    by_cases hx : jsWs x = true
    · rw [if_pos hx] at h
      rcases b with _ | _
      · simp only [Bool.false_eq_true, if_false] at h
        rcases List.mem_cons.mp h with rfl | h'
        · exact Or.inl rfl
        · rcases ih true c h' with h1 | ⟨h2, h3⟩
          · exact Or.inl h1
          · exact Or.inr ⟨List.mem_cons_of_mem x h2, h3⟩
      · simp only [if_true] at h
        rcases ih true c h with h1 | ⟨h2, h3⟩
        · exact Or.inl h1
        · exact Or.inr ⟨List.mem_cons_of_mem x h2, h3⟩
    · rw [if_neg hx] at h
      rcases List.mem_cons.mp h with rfl | h'
      · exact Or.inr ⟨List.mem_cons_self c t, by simpa using hx⟩
      · rcases ih false c h' with h1 | ⟨h2, h3⟩
        · exact Or.inl h1
        · exact Or.inr ⟨List.mem_cons_of_mem x h2, h3⟩

theorem mem_dropTrailWhile {p : Char → Bool} {l : List Char} {c : Char}
    (h : c ∈ dropTrailWhile p l) : c ∈ l := by
  unfold dropTrailWhile at h
  rw [List.mem_reverse] at h
  have := (List.dropWhile_sublist p).subset h
  rwa [List.mem_reverse] at this

theorem mem_jsTrimList {l : List Char} {c : Char} (h : c ∈ jsTrimList l) : c ∈ l :=
  (List.dropWhile_sublist jsWs).subset (mem_dropTrailWhile h)

theorem mem_scrubTail (l : List Char) (c : Char) (h : c ∈ scrubTail l) :
    isOutChar c = true := by
  unfold scrubTail at h
  have h1 := mem_jsTrimList h
  rcases mem_collapseWsAux _ false c h1 with rfl | ⟨h2, h3⟩
  · simp [isOutChar]
  · obtain ⟨a, -, ha⟩ := List.mem_map.mp h2
    by_cases hk : isKeptChar a = true
    · rw [if_pos hk] at ha
      subst ha
      simp only [isKeptChar, Bool.or_eq_true] at hk
      rcases hk with ((h4 | h4) | h4) | h4 <;> simp [isOutChar, h4]
      · rw [h4] at h3
        cases h3
    · rw [if_neg hk] at ha
      subst ha
      simp [isOutChar]

theorem firstValidSeg_spec :
    ∀ (segs : List (List Char)) (cl : List Char),
      firstValidSeg segs = some cl →
        isLikelySubject (String.mk cl) = true ∧ ∃ seg ∈ segs, cl = cleanSegment seg := by
  intro segs
  induction segs with
  | nil => intro cl h; cases h
  | cons seg rest ih =>
    intro cl h
    unfold firstValidSeg at h
    by_cases hv : isLikelySubject (String.mk (cleanSegment seg)) = true
    · rw [if_pos hv] at h
      cases h
      exact ⟨hv, seg, List.mem_cons_self seg rest, rfl⟩
    · rw [if_neg hv] at h
      obtain ⟨h1, seg', hmem, heq⟩ := ih cl h
      exact ⟨h1, seg', List.mem_cons_of_mem seg hmem, heq⟩

/-- Every string `normalizeSubject` returns is either empty or a phrase
that passes `isLikelySubject` and uses only the output alphabet. -/
theorem normalizeSubject_cases (raw : String) :
    normalizeSubject raw = "" ∨
    (isLikelySubject (normalizeSubject raw) = true ∧
      ∀ c ∈ (normalizeSubject raw).data, isOutChar c = true) := by
  unfold normalizeSubject
  by_cases h0 : (raw == "") = true
  · left
    simp [h0]
  · simp only [h0, Bool.false_eq_true, if_false]
    cases hfv : firstValidSeg
        (((splitOnPred isDelim raw.data).map jsTrimList).filter fun l => l ≠ []) with
    | some cl =>
      right
      obtain ⟨hlike, seg, -, heq⟩ := firstValidSeg_spec _ cl hfv
      refine ⟨hlike, ?_⟩
      intro c hc
      subst heq
      exact mem_scrubTail _ c hc
    | none =>
      by_cases hfb :
          isLikelySubject (String.mk (scrubTail (raw.data.map Char.toLower))) = true
      · right
        rw [if_pos hfb]
        exact ⟨hfb, fun c hc => mem_scrubTail _ c hc⟩
      · left
        rw [if_neg hfb]

/-- C10 — confirmed.  Whenever `detectMainSubject` returns a string, that
string is non-empty: it is either a normalized phrase passing the
`isLikelySubject` filter (over the lowercase `[a-z0-9 -]` alphabet), or
the literal fallback `"main subject"`; and when the first attempt yields
no valid subject and the retry throws or also yields none, the fallback
is exactly what is returned.  (If the FIRST attempt throws, the function
throws and returns no string at all.) -/
theorem C10_detectMainSubject_never_empty (resp1 resp2 : ApiResponse) (s : String)
    (h : detectMainSubject resp1 resp2 = .ok s) :
    s ≠ "" ∧
    (s = "main subject" ∨
      (isLikelySubject s = true ∧ ∀ c ∈ s.data, isOutChar c = true)) ∧
    (∀ t1, runSubjectPrompt resp1 = .ok t1 → normalizeSubject t1 = "" →
      (∀ t2, runSubjectPrompt resp2 = .ok t2 → normalizeSubject t2 = "") →
      s = "main subject") := by
  unfold detectMainSubject at h
  cases h1 : runSubjectPrompt resp1 with
  | error e =>
    simp only [h1] at h
    exact Except.noConfusion h
  | ok t1 =>
    simp only [h1] at h
    by_cases hn1 : normalizeSubject t1 ≠ ""
    · rw [if_pos hn1] at h
      cases h
      rcases normalizeSubject_cases t1 with hempty | ⟨hlike, hchars⟩
      · exact absurd hempty hn1
      · refine ⟨hn1, Or.inr ⟨hlike, hchars⟩, ?_⟩
        intro t1' ht1' hnorm _
        cases ht1'
        exact absurd hnorm hn1
    · rw [if_neg hn1] at h
      push_neg at hn1
      cases h2 : runSubjectPrompt resp2 with
      | error e =>
        simp only [h2] at h
        cases h
        exact ⟨by decide, Or.inl rfl, fun _ _ _ _ => rfl⟩
      | ok t2 =>
        simp only [h2] at h
        by_cases hn2 : normalizeSubject t2 ≠ ""
        · rw [if_pos hn2] at h
          cases h
          rcases normalizeSubject_cases t2 with hempty | ⟨hlike, hchars⟩
          · exact absurd hempty hn2
          · refine ⟨hn2, Or.inr ⟨hlike, hchars⟩, ?_⟩
            intro t1' ht1' hnorm hall
            exact absurd (hall t2 rfl) hn2
        · rw [if_neg hn2] at h
          cases h
          exact ⟨by decide, Or.inl rfl, fun _ _ _ _ => rfl⟩

/-- A response part carrying the text `"A red bicycle."`. -/
def sampleSubjectPart : RespPart :=
  { text := some "A red bicycle.", inline_data := none, inlineData := none }

/-- A subject-detection response whose first part says `"A red bicycle."`. -/
def sampleSubjectResp : ApiResponse :=
  { ok := true, status := 200, errText := "",
    candidates := [{ parts := some [sampleSubjectPart] }] }

/-- A failing subject-detection response. -/
def sampleFailResp : ApiResponse :=
  { ok := false, status := 500, errText := "boom", candidates := [] }

/-- Witness for `C10_detectMainSubject_never_empty`: the first response
text `"A red bicycle."` normalizes to the valid subject `"red bicycle"`. -/
theorem C10_detectMainSubject_never_empty_witness :
    ("red bicycle" : String) ≠ "" ∧
    (("red bicycle" : String) = "main subject" ∨
      (isLikelySubject "red bicycle" = true ∧
        ∀ c ∈ ("red bicycle" : String).data, isOutChar c = true)) := by
  have h := C10_detectMainSubject_never_empty sampleSubjectResp sampleFailResp
    "red bicycle" rfl
  exact ⟨h.1, h.2.1⟩

/-! ## Exact tile coverage of the planned grid (claim C5)

Axis-level abbreviations for the quantities `calculateGrid` computes:
tile dimension `S / (n - (n-1)·r)`, step `tileDim - tileDim·r`, origin
`c · step`. -/

def tileDim (S : ℚ) (n : ℕ) (r : ℚ) : ℚ :=
  S / ((n : ℚ) - ((n : ℚ) - 1) * r)

def tileStep (S : ℚ) (n : ℕ) (r : ℚ) : ℚ :=
  tileDim S n r - tileDim S n r * r

def tileOrigin (S : ℚ) (n : ℕ) (r : ℚ) (c : ℕ) : ℚ :=
  (c : ℚ) * tileStep S n r

theorem gridTile_x (w h : ℚ) (rows cols : ℕ) (ov : ℚ) (rr cc : ℕ) :
    (gridTile w h rows cols ov rr cc).x = tileOrigin w cols ov cc := rfl

theorem gridTile_y (w h : ℚ) (rows cols : ℕ) (ov : ℚ) (rr cc : ℕ) :
    (gridTile w h rows cols ov rr cc).y = tileOrigin h rows ov rr := rfl

theorem gridTile_w (w h : ℚ) (rows cols : ℕ) (ov : ℚ) (rr cc : ℕ) :
    (gridTile w h rows cols ov rr cc).w = tileDim w cols ov := rfl

theorem gridTile_h (w h : ℚ) (rows cols : ℕ) (ov : ℚ) (rr cc : ℕ) :
    (gridTile w h rows cols ov rr cc).h = tileDim h rows ov := rfl

theorem tileDim_pos (S : ℚ) (n : ℕ) (r : ℚ) (hS : 0 < S) (hn : 1 ≤ n)
    (hr0 : 0 ≤ r) (hr1 : r < 1) : 0 < tileDim S n r :=
  div_pos hS (grid_denom_pos n r hn hr0 hr1)

theorem tileStep_pos (S : ℚ) (n : ℕ) (r : ℚ) (hS : 0 < S) (hn : 1 ≤ n)
    (hr0 : 0 ≤ r) (hr1 : r < 1) : 0 < tileStep S n r := by
  have hT := tileDim_pos S n r hS hn hr0 hr1
  unfold tileStep
  nlinarith

theorem tileStep_le_dim (S : ℚ) (n : ℕ) (r : ℚ) (hS : 0 < S) (hn : 1 ≤ n)
    (hr0 : 0 ≤ r) (hr1 : r < 1) : tileStep S n r ≤ tileDim S n r := by
  have hT := tileDim_pos S n r hS hn hr0 hr1
  unfold tileStep
  nlinarith

/-- The far edge of the last tile on an axis lands exactly on `S`. -/
theorem tileOrigin_last (S : ℚ) (n : ℕ) (r : ℚ) (hS : 0 < S) (hn : 1 ≤ n)
    (hr0 : 0 ≤ r) (hr1 : r < 1) :
    tileOrigin S n r (n - 1) + tileDim S n r = S := by
  have hD := grid_denom_pos n r hn hr0 hr1
  unfold tileOrigin tileStep tileDim
  have hcast : (((n - 1 : ℕ)) : ℚ) = (n : ℚ) - 1 := by
    have : (1 : ℕ) ≤ n := hn
    push_cast [Nat.cast_sub this]
    ring
  rw [hcast]
  have key : ((n : ℚ) - 1) *
        (S / ((n : ℚ) - ((n : ℚ) - 1) * r) - S / ((n : ℚ) - ((n : ℚ) - 1) * r) * r) +
        S / ((n : ℚ) - ((n : ℚ) - 1) * r) =
      S / ((n : ℚ) - ((n : ℚ) - 1) * r) * ((n : ℚ) - ((n : ℚ) - 1) * r) := by
    ring
  rw [key, div_mul_cancel₀ S hD.ne']

/-- Per-axis coverage: every `p ∈ [0, S]` lies inside the extent of some
tile index `c < n`. -/
theorem axis_cover (S : ℚ) (n : ℕ) (r : ℚ) (hS : 0 < S) (hn : 1 ≤ n)
    (hr0 : 0 ≤ r) (hr1 : r < 1) (p : ℚ) (hp0 : 0 ≤ p) (hpS : p ≤ S) :
    ∃ c : ℕ, c < n ∧ tileOrigin S n r c ≤ p ∧ p ≤ tileOrigin S n r c + tileDim S n r := by
  have hT := tileDim_pos S n r hS hn hr0 hr1
  have hs := tileStep_pos S n r hS hn hr0 hr1
  have hsT := tileStep_le_dim S n r hS hn hr0 hr1
  set s := tileStep S n r with hsdef
  have hk0 : 0 ≤ ⌊p / s⌋ := Int.floor_nonneg.mpr (div_nonneg hp0 hs.le)
  by_cases hcase : (⌊p / s⌋).toNat ≤ n - 1
  · refine ⟨(⌊p / s⌋).toNat, by omega, ?_, ?_⟩
    · unfold tileOrigin
      have hc : (((⌊p / s⌋).toNat : ℕ) : ℚ) = ((⌊p / s⌋ : ℤ) : ℚ) := by
        exact_mod_cast Int.toNat_of_nonneg hk0
      rw [← hsdef, hc]
      have h1 : ((⌊p / s⌋ : ℤ) : ℚ) ≤ p / s := Int.floor_le _
      calc ((⌊p / s⌋ : ℤ) : ℚ) * s ≤ (p / s) * s :=
            mul_le_mul_of_nonneg_right h1 hs.le
        _ = p := div_mul_cancel₀ p hs.ne'
    · unfold tileOrigin
      have hc : (((⌊p / s⌋).toNat : ℕ) : ℚ) = ((⌊p / s⌋ : ℤ) : ℚ) := by
        exact_mod_cast Int.toNat_of_nonneg hk0
      rw [← hsdef, hc]
      have h2 : p / s < ((⌊p / s⌋ : ℤ) : ℚ) + 1 := Int.lt_floor_add_one _
      have h3 : p < (((⌊p / s⌋ : ℤ) : ℚ) + 1) * s := by
        have h4 := mul_lt_mul_of_pos_right h2 hs
        rwa [div_mul_cancel₀ p hs.ne'] at h4
      nlinarith
  · refine ⟨n - 1, by omega, ?_, ?_⟩
    · unfold tileOrigin
      rw [← hsdef]
      have hlt : (n : ℤ) - 1 < ⌊p / s⌋ := by omega
      have hc : (((n - 1 : ℕ)) : ℚ) = (n : ℚ) - 1 := by
        push_cast [Nat.cast_sub hn]
        ring
      rw [hc]
      have h1 : ((n : ℚ) - 1) ≤ p / s := by
        have h5 : ((n : ℚ) - 1) ≤ ((⌊p / s⌋ : ℤ) : ℚ) := by exact_mod_cast hlt.le
        exact h5.trans (Int.floor_le _)
      calc ((n : ℚ) - 1) * s ≤ (p / s) * s := mul_le_mul_of_nonneg_right h1 hs.le
        _ = p := div_mul_cancel₀ p hs.ne'
    · rw [tileOrigin_last S n r hS hn hr0 hr1]
      exact hpS

/-- Per-axis containment: every tile extent stays inside `[0, S]`. -/
theorem axis_inbounds (S : ℚ) (n : ℕ) (r : ℚ) (hS : 0 < S) (hn : 1 ≤ n)
    (hr0 : 0 ≤ r) (hr1 : r < 1) (c : ℕ) (hc : c < n) :
    0 ≤ tileOrigin S n r c ∧ tileOrigin S n r c + tileDim S n r ≤ S := by
  have hs := tileStep_pos S n r hS hn hr0 hr1
  constructor
  · exact mul_nonneg (Nat.cast_nonneg c) hs.le
  · have hlast := tileOrigin_last S n r hS hn hr0 hr1
    unfold tileOrigin at hlast ⊢
    have hcle : ((c : ℕ) : ℚ) ≤ (((n - 1 : ℕ)) : ℚ) := by
      exact_mod_cast Nat.le_sub_one_of_lt hc
    have hmul : ((c : ℕ) : ℚ) * tileStep S n r ≤
        (((n - 1 : ℕ)) : ℚ) * tileStep S n r :=
      mul_le_mul_of_nonneg_right hcle hs.le
    linarith

theorem computeSmartGridCount_ge_one (S m r : ℚ) :
    1 ≤ computeSmartGridCount S m r := by
  unfold computeSmartGridCount clampInt smartGridMaxCount
  by_cases h : (1 - r ≤ 0)
  · simp [h]
  · simp only [h, if_false]
    omega

/-- Whenever the unclamped per-axis demand does not exceed the hard cap
of 64, the planner's count keeps the tile dimension within `m`. -/
theorem axis_dim_le (S m r : ℚ) (hS : 0 < S) (hm : 1 ≤ m)
    (hr0 : 0 ≤ r) (hr1 : r < 1) (hcap : ⌈(S / m - r) / (1 - r)⌉ ≤ 64) :
    tileDim S ((computeSmartGridCount S m r).toNat) r ≤ m := by
  have hmax : Max.max 1 m = m := max_eq_right hm
  have heq := computeSmartGridCount_eq S m r hr1
  rw [hmax] at heq
  have hmin : Min.min 64 (⌈(S / m - r) / (1 - r)⌉ : ℤ) = ⌈(S / m - r) / (1 - r)⌉ :=
    min_eq_right hcap
  rw [hmin] at heq
  have h1 : 1 ≤ computeSmartGridCount S m r := computeSmartGridCount_ge_one S m r
  have hge : (⌈(S / m - r) / (1 - r)⌉ : ℤ) ≤ computeSmartGridCount S m r := by
    rw [heq]
    omega
  have hn1 : 1 ≤ (computeSmartGridCount S m r).toNat := by omega
  have hcast : (((computeSmartGridCount S m r).toNat : ℕ) : ℚ) =
      ((computeSmartGridCount S m r : ℤ) : ℚ) := by
    exact_mod_cast Int.toNat_of_nonneg (by omega)
  have hm0 : (0 : ℚ) < m := lt_of_lt_of_le one_pos hm
  have h1r : (0 : ℚ) < 1 - r := by linarith
  have hv : (S / m - r) / (1 - r) ≤ ((computeSmartGridCount S m r : ℤ) : ℚ) :=
    le_trans (Int.le_ceil _) (by exact_mod_cast hge)
  have h2 : S / m - r ≤ ((computeSmartGridCount S m r : ℤ) : ℚ) * (1 - r) :=
    (div_le_iff h1r).mp hv
  unfold tileDim
  rw [div_le_iff (grid_denom_pos _ r hn1 hr0 hr1)]
  rw [hcast]
  have h3 : S / m ≤ ((computeSmartGridCount S m r : ℤ) : ℚ) -
      (((computeSmartGridCount S m r : ℤ) : ℚ) - 1) * r := by nlinarith
  calc S = S / m * m := by rw [div_mul_cancel₀ S hm0.ne']
    _ ≤ (((computeSmartGridCount S m r : ℤ) : ℚ) -
          (((computeSmartGridCount S m r : ℤ) : ℚ) - 1) * r) * m :=
        mul_le_mul_of_nonneg_right h3 hm0.le
    _ = m * (((computeSmartGridCount S m r : ℤ) : ℚ) -
          (((computeSmartGridCount S m r : ℤ) : ℚ) - 1) * r) := by ring

/-- C5 — counterexample.  For a 100000×100 image with
`maxTileDimension = 1024` and `overlapRatio = 0`, the demanded column
count `ceil(100000/1024) = 98` is clamped to the hard cap 64, so every
tile is `100000/64 = 1562.5` pixels wide — exceeding `maxTileDimension`. -/
theorem C5_counterexample :
    computeSmartGridCount 100000 1024 0 = 64 ∧
    computeSmartGridCount 100 1024 0 = 1 ∧
    (∀ t ∈ calculateGrid 100000 100 1 64 0, t.w = 3125/2) ∧
    ¬ ((3125/2 : ℚ) ≤ 1024) := by
  refine ⟨?_, ?_, ?_, by norm_num⟩
  · rw [computeSmartGridCount_eq 100000 1024 0 (by norm_num)]
    rw [show ((100000 : ℚ) / Max.max 1 1024 - 0) / (1 - 0) = 3125/32 by norm_num]
    rw [show (⌈(3125 : ℚ)/32⌉ : ℤ) = 98 by rw [Int.ceil_eq_iff]; norm_num]
    decide
  · rw [computeSmartGridCount_eq 100 1024 0 (by norm_num)]
    rw [show ((100 : ℚ) / Max.max 1 1024 - 0) / (1 - 0) = 25/256 by norm_num]
    rw [show (⌈(25 : ℚ)/256⌉ : ℤ) = 1 by rw [Int.ceil_eq_iff]; norm_num]
    decide
  · intro t ht
    obtain ⟨rr, cc, -, -, rfl⟩ := mem_calculateGrid.mp ht
    rw [gridTile_w]
    unfold tileDim
    norm_num

/-- C5 — amended.  For every `imageWidth, imageHeight > 0`,
`maxTileDimension ≥ 1`, and `0 ≤ r < 1`, with `rows`/`cols` taken from
the planner: the tile rectangles cover every point of
`[0, imageWidth] × [0, imageHeight]` and stay inside it (union = image,
no gaps), the `(0,0)` tile starts at the origin, consecutive origins step
by `tileDim · (1 - r)`, the last tile's far edge lands exactly on the
image extent in exact arithmetic — and the constrained-axis bound
`tileDim ≤ maxTileDimension` holds WHENEVER the unclamped per-axis demand
`ceil((S/maxTileDimension - r)/(1 - r))` does not exceed the hard cap 64
(the counterexample shows it fails beyond the cap). -/
theorem C5_grid_exact_cover (w h m r : ℚ) (rows cols : ℕ)
    (hw : 0 < w) (hh : 0 < h) (hm : 1 ≤ m) (hr0 : 0 ≤ r) (hr1 : r < 1)
    (hrows : rows = (computeSmartGridCount h m r).toNat)
    (hcols : cols = (computeSmartGridCount w m r).toNat) :
    (∀ p q : ℚ, 0 ≤ p → p ≤ w → 0 ≤ q → q ≤ h →
      ∃ t ∈ calculateGrid w h rows cols r,
        t.x ≤ p ∧ p ≤ t.x + t.w ∧ t.y ≤ q ∧ q ≤ t.y + t.h) ∧
    (∀ t ∈ calculateGrid w h rows cols r,
      0 ≤ t.x ∧ t.x + t.w ≤ w ∧ 0 ≤ t.y ∧ t.y + t.h ≤ h) ∧
    (∀ t ∈ calculateGrid w h rows cols r, t.r = 0 → t.c = 0 → t.x = 0 ∧ t.y = 0) ∧
    (∀ t1 t2, t1 ∈ calculateGrid w h rows cols r → t2 ∈ calculateGrid w h rows cols r →
      (t1.r = t2.r → t2.c = t1.c + 1 → t2.x - t1.x = t1.w * (1 - r)) ∧
      (t1.c = t2.c → t2.r = t1.r + 1 → t2.y - t1.y = t1.h * (1 - r))) ∧
    (∀ t ∈ calculateGrid w h rows cols r,
      (t.c = cols - 1 → t.x + t.w = w) ∧ (t.r = rows - 1 → t.y + t.h = h)) ∧
    ((⌈(w / m - r) / (1 - r)⌉ ≤ 64 → ∀ t ∈ calculateGrid w h rows cols r, t.w ≤ m) ∧
     (⌈(h / m - r) / (1 - r)⌉ ≤ 64 → ∀ t ∈ calculateGrid w h rows cols r, t.h ≤ m)) := by
  have hrows1 : 1 ≤ rows := by
    rw [hrows]
    have := computeSmartGridCount_ge_one h m r
    omega
  have hcols1 : 1 ≤ cols := by
    rw [hcols]
    have := computeSmartGridCount_ge_one w m r
    omega
  refine ⟨?_, ?_, ?_, ?_, ?_, ?_, ?_⟩
  · intro p q hp0 hpw hq0 hqh
    obtain ⟨cx, hcx, hx1, hx2⟩ := axis_cover w cols r hw hcols1 hr0 hr1 p hp0 hpw
    obtain ⟨cy, hcy, hy1, hy2⟩ := axis_cover h rows r hh hrows1 hr0 hr1 q hq0 hqh
    exact ⟨gridTile w h rows cols r cy cx,
      mem_calculateGrid.mpr ⟨cy, cx, hcy, hcx, rfl⟩,
      by rw [gridTile_x]; exact hx1,
      by rw [gridTile_x, gridTile_w]; exact hx2,
      by rw [gridTile_y]; exact hy1,
      by rw [gridTile_y, gridTile_h]; exact hy2⟩
  · intro t ht
    obtain ⟨rr, cc, hrr, hcc, rfl⟩ := mem_calculateGrid.mp ht
    rw [gridTile_x, gridTile_y, gridTile_w, gridTile_h]
    obtain ⟨hx0, hxw⟩ := axis_inbounds w cols r hw hcols1 hr0 hr1 cc hcc
    obtain ⟨hy0, hyh⟩ := axis_inbounds h rows r hh hrows1 hr0 hr1 rr hrr
    exact ⟨hx0, hxw, hy0, hyh⟩
  · intro t ht htr htc
    obtain ⟨rr, cc, hrr, hcc, rfl⟩ := mem_calculateGrid.mp ht
    have hrr0 : rr = 0 := htr
    have hcc0 : cc = 0 := htc
    subst hrr0 hcc0
    rw [gridTile_x, gridTile_y]
    unfold tileOrigin
    norm_num
  · intro t1 t2 h1 h2
    obtain ⟨r1, c1, hr1m, hc1, rfl⟩ := mem_calculateGrid.mp h1
    obtain ⟨r2, c2, hr2m, hc2, rfl⟩ := mem_calculateGrid.mp h2
    constructor
    · intro _ hcc
      have hc2e : c2 = c1 + 1 := hcc
      subst hc2e
      rw [gridTile_x, gridTile_x, gridTile_w]
      unfold tileOrigin tileStep
      push_cast
      ring
    · intro _ hrr
      have hr2e : r2 = r1 + 1 := hrr
      subst hr2e
      rw [gridTile_y, gridTile_y, gridTile_h]
      unfold tileOrigin tileStep
      push_cast
      ring
  · intro t ht
    obtain ⟨rr, cc, hrr, hcc, rfl⟩ := mem_calculateGrid.mp ht
    constructor
    · intro hce
      have hcc0 : cc = cols - 1 := hce
      subst hcc0
      rw [gridTile_x, gridTile_w]
      exact tileOrigin_last w cols r hw hcols1 hr0 hr1
    · intro hre
      have hrr0 : rr = rows - 1 := hre
      subst hrr0
      rw [gridTile_y, gridTile_h]
      exact tileOrigin_last h rows r hh hrows1 hr0 hr1
  · intro hcap t ht
    obtain ⟨rr, cc, hrr, hcc, rfl⟩ := mem_calculateGrid.mp ht
    rw [gridTile_w, hcols]
    exact axis_dim_le w m r hw hm hr0 hr1 hcap
  · intro hcap t ht
    obtain ⟨rr, cc, hrr, hcc, rfl⟩ := mem_calculateGrid.mp ht
    rw [gridTile_h, hrows]
    exact axis_dim_le h m r hh hm hr0 hr1 hcap

/-- Witness for `C5_grid_exact_cover` on the 2000×1000 scenario
(`rows = 1`, `cols = 3`): the `(0,0)` tile starts at the origin. -/
theorem C5_grid_exact_cover_witness :
    (gridTile 2000 1000 1 3 (1/10) 0 0).x = 0 ∧
    (gridTile 2000 1000 1 3 (1/10) 0 0).y = 0 :=
  (C5_grid_exact_cover 2000 1000 1024 (1/10) 1 3 (by norm_num) (by norm_num)
      (by norm_num) (by norm_num) (by norm_num)
      (by rw [computeSmartGridCount_1000]; rfl)
      (by rw [computeSmartGridCount_2000]; rfl)).2.2.1
    (gridTile 2000 1000 1 3 (1/10) 0 0)
    (mem_calculateGrid.mpr ⟨0, 0, by omega, by omega, rfl⟩) rfl rfl

end TiledBG
